import Mathlib

/-!
# Verification of the quicktodo concurrent project-database core

Shallow embedding of the Go sources under `internal/database`,
`internal/models` and `internal/sync` (task model), together with proofs
about the store operations, the lock manager's acquire policy, and the
document codec.

Go strings are byte sequences; we model them as `List Nat` (one entry per
byte).  Go `time.Time` values are modelled as natural numbers measured in
milliseconds, with `0` playing the role of Go's zero time (`IsZero`),
`<` playing `Before`, and truncated subtraction playing `time.Since`
(a Go negative duration compares below any positive threshold exactly as
the truncated-to-zero value does).  Go `int` is modelled as `Int` where a
validity check on possibly-negative input matters (`models.Task`), and as
`Nat` for counters that the embedded code only ever starts at 1 and
increments (`database.ProjectDatabase`).
-/

namespace QuickTodo

/-- A Go string: a sequence of bytes. -/
abbrev GoStr := List Nat

/-- Encode an ASCII Lean string literal as a Go byte string.  Only used to
write down concrete inputs; every literal passed to it in this file is
ASCII, for which codepoints and UTF-8 bytes coincide. -/
def gs (s : String) : GoStr := s.data.map Char.toNat

/-- Go `time.Time`, in milliseconds; `0` is the zero time. -/
abbrev Time := Nat

/-! ## internal/database/project.go : the string-typed store -/

/-- `database.TaskEntry` (project.go lines 22-33). -/
structure TaskEntry where
  id : Nat
  title : GoStr
  description : GoStr
  status : GoStr
  priority : GoStr
  createdAt : Time
  updatedAt : Time
  assignedTo : GoStr
  lockedBy : GoStr
  lockedAt : Time
deriving Repr, DecidableEq

/-- `database.ProjectDatabase` (project.go lines 12-19). -/
structure DBProjectDatabase where
  projectName : GoStr
  projectPath : GoStr
  tasks : List TaskEntry
  nextID : Nat
  lastModified : Time
  version : Nat
deriving Repr, DecidableEq

/-- `database.NewProjectDatabase` (project.go lines 36-45). -/
def NewProjectDatabase (projectName projectPath : GoStr) (now : Time) :
    DBProjectDatabase :=
  { projectName := projectName
    projectPath := projectPath
    tasks := []
    nextID := 1
    lastModified := now
    version := 1 }

/-- `database.ProjectDatabase.AddTask` (project.go lines 105-134).
`now` stands for the two `time.Now()` calls (same instant).  On the
validation failure the receiver is untouched, which the `Except` result
renders as returning no new store. -/
def DBProjectDatabase.addTask (db : DBProjectDatabase)
    (title description priority : GoStr) (now : Time) :
    Except String (TaskEntry × DBProjectDatabase) :=
  if title = [] then
    .error "task title cannot be empty"
  else
    let priority := if priority = [] then gs "medium" else priority
    let task : TaskEntry :=
      { id := db.nextID
        title := title
        description := description
        status := gs "pending"
        priority := priority
        createdAt := now
        updatedAt := now
        assignedTo := []
        lockedBy := []
        lockedAt := 0 }
    .ok (task, { db with tasks := db.tasks ++ [task], nextID := db.nextID + 1 })

/-- `database.ProjectDatabase.GetTask` (project.go lines 137-144): first
task with the given id, scanning in order. -/
def findTask (tasks : List TaskEntry) (id : Nat) : Option TaskEntry :=
  match tasks with
  | [] => none
  | t :: rest => if t.id = id then some t else findTask rest id

/-- `database.ProjectDatabase.GetTask` result. -/
def DBProjectDatabase.getTask (db : DBProjectDatabase) (id : Nat) :
    Except String TaskEntry :=
  match findTask db.tasks id with
  | some t => .ok t
  | none => .error "task not found"

/-- The `updates map[string]interface{}` argument of
`database.ProjectDatabase.UpdateTask`: the five keys the code probes, each
present-with-a-string-value or not.  (A key present with a non-string
value is skipped by the code's type assertion, observably the same as an
absent key.) -/
structure TaskUpdates where
  title : Option GoStr
  description : Option GoStr
  status : Option GoStr
  priority : Option GoStr
  assignedTo : Option GoStr
deriving Repr, DecidableEq

/-- Field application part of `database.ProjectDatabase.UpdateTask`
(project.go lines 160-194), including the unconditional
`task.UpdatedAt = time.Now()`. -/
def applyUpdates (t : TaskEntry) (u : TaskUpdates) (now : Time) : TaskEntry :=
  let t := match u.title with | some s => { t with title := s } | none => t
  let t := match u.description with | some s => { t with description := s } | none => t
  let t := match u.status with | some s => { t with status := s } | none => t
  let t := match u.priority with | some s => { t with priority := s } | none => t
  let t := match u.assignedTo with | some s => { t with assignedTo := s } | none => t
  { t with updatedAt := now }

/-- Replace the first task with the given id (index search of
project.go lines 148-154 plus in-place mutation). -/
def updateFirst (tasks : List TaskEntry) (id : Nat) (u : TaskUpdates)
    (now : Time) : Option (List TaskEntry) :=
  match tasks with
  | [] => none
  | t :: rest =>
    if t.id = id then some (applyUpdates t u now :: rest)
    else (updateFirst rest id u now).map (t :: ·)

/-- `database.ProjectDatabase.UpdateTask` (project.go lines 147-197). -/
def DBProjectDatabase.updateTask (db : DBProjectDatabase) (id : Nat)
    (u : TaskUpdates) (now : Time) : Except String DBProjectDatabase :=
  match updateFirst db.tasks id u now with
  | some tasks => .ok { db with tasks := tasks }
  | none => .error "task not found"

/-- Remove the first task with the given id (project.go lines 201-207). -/
def removeFirst (tasks : List TaskEntry) (id : Nat) :
    Option (List TaskEntry) :=
  match tasks with
  | [] => none
  | t :: rest =>
    if t.id = id then some rest
    else (removeFirst rest id).map (t :: ·)

/-- `database.ProjectDatabase.DeleteTask` (project.go lines 200-209). -/
def DBProjectDatabase.deleteTask (db : DBProjectDatabase) (id : Nat) :
    Except String DBProjectDatabase :=
  match removeFirst db.tasks id with
  | some tasks => .ok { db with tasks := tasks }
  | none => .error "task not found"

/-! ### Case-insensitive search helpers of internal/database/project.go -/

/-- ASCII lower-casing of one byte, as both `caseInsensitiveMatch`
(project.go lines 338-343) and `caseInsensitiveEqual`
(models/project.go lines 397-403) perform it. -/
def lowerByte (c : Nat) : Nat := if 65 ≤ c ∧ c ≤ 90 then c + 32 else c

/-- `database.caseInsensitiveMatch` (project.go lines 332-351): equal
length and byte-wise equality after ASCII lower-casing.  The index loop
is rendered as simultaneous recursion on the two byte lists. -/
def caseInsensitiveMatch : GoStr → GoStr → Bool
  | [], [] => true
  | c1 :: s1, c2 :: s2 => lowerByte c1 == lowerByte c2 && caseInsensitiveMatch s1 s2
  | _, _ => false

/-- `database.anyMatch` (project.go lines 322-329): try every window
`s[i : i+len(substr)]` for `0 ≤ i ≤ len(s) - len(substr)`. -/
def anyMatch (s substr : GoStr) : Bool :=
  (List.range (s.length - substr.length + 1)).any fun i =>
    caseInsensitiveMatch ((s.drop i).take substr.length) substr

/-- `database.contains` (project.go lines 314-319). -/
def contains (s substr : GoStr) : Bool :=
  decide (s.length ≥ substr.length) &&
    (s == substr || (decide (s.length > substr.length) && anyMatch s substr))

/-- `database.ProjectDatabase.SearchTasks` (project.go lines 232-242). -/
def DBProjectDatabase.searchTasks (db : DBProjectDatabase) (query : GoStr) :
    List TaskEntry :=
  db.tasks.filter fun task =>
    contains task.title query || contains task.description query

/-- `database.ProjectDatabase.ListTasks` (project.go lines 212-229):
optional status filter only. -/
def DBProjectDatabase.listTasks (db : DBProjectDatabase)
    (statusFilter : GoStr) : List TaskEntry :=
  if statusFilter = [] then db.tasks
  else db.tasks.filter fun task => task.status == statusFilter

/-! ## internal/sync/todo_sync.go task model and internal/models/project.go
typed store.  `Status` and `Priority` are Go named string types, so they
are modelled as plain byte strings with validity predicates. -/

/-- `models.IsValidStatus` (todo_sync.go lines 751-758). -/
def IsValidStatus (s : GoStr) : Bool :=
  s == gs "pending" || s == gs "in_progress" || s == gs "done"

/-- `models.IsValidPriority` (todo_sync.go lines 761-768). -/
def IsValidPriority (p : GoStr) : Bool :=
  p == gs "low" || p == gs "medium" || p == gs "high"

/-- `models.Task` (todo_sync.go lines 707-718).  `id` is a Go `int`,
kept as `Int` because `Validate` distinguishes non-positive values. -/
structure Task where
  id : Int
  title : GoStr
  description : GoStr
  status : GoStr
  priority : GoStr
  createdAt : Time
  updatedAt : Time
  assignedTo : GoStr
  lockedBy : GoStr
  lockedAt : Time
deriving Repr, DecidableEq

/-- `models.Task.Validate` (todo_sync.go lines 803-833). -/
def Task.Validate (t : Task) : Except String Unit :=
  if t.id ≤ 0 then .error "task ID must be positive"
  else if t.title = [] then .error "task title cannot be empty"
  else if ¬ IsValidStatus t.status then .error "invalid status"
  else if ¬ IsValidPriority t.priority then .error "invalid priority"
  else if t.createdAt = 0 then .error "created_at cannot be zero"
  else if t.updatedAt = 0 then .error "updated_at cannot be zero"
  else if t.updatedAt < t.createdAt then
    .error "updated_at cannot be before created_at"
  else .ok ()

/-- `models.Task.Clone` (todo_sync.go lines 915-928): every field copied
explicitly into a fresh value. -/
def Task.Clone (t : Task) : Task :=
  { id := t.id
    title := t.title
    description := t.description
    status := t.status
    priority := t.priority
    createdAt := t.createdAt
    updatedAt := t.updatedAt
    assignedTo := t.assignedTo
    lockedBy := t.lockedBy
    lockedAt := t.lockedAt }

/-- `models.TaskFilter` (todo_sync.go lines 990-995). -/
structure TaskFilter where
  status : Option GoStr
  priority : Option GoStr
  assignedTo : Option GoStr
  lockedBy : Option GoStr
deriving Repr, DecidableEq

/-- `models.TaskFilter.Matches` (todo_sync.go lines 998-1016): each
present criterion must match, absent criteria are skipped. -/
def TaskFilter.Matches (f : TaskFilter) (task : Task) : Bool :=
  (match f.status with | some s => task.status == s | none => true) &&
  (match f.priority with | some p => task.priority == p | none => true) &&
  (match f.assignedTo with | some a => task.assignedTo == a | none => true) &&
  (match f.lockedBy with | some l => task.lockedBy == l | none => true)

/-- `models.Project` (models/project.go lines 11-18). -/
structure Project where
  name : GoStr
  path : GoStr
  createdAt : Time
  lastAccessed : Time
  taskCount : Int
  description : GoStr
deriving Repr, DecidableEq

/-- `models.Project.UpdateTaskCount` (models/project.go lines 100-104). -/
def Project.updateTaskCount (p : Project) (count : Int) : Project :=
  if count ≥ 0 then { p with taskCount := count } else p

/-- `models.ProjectDatabase` (models/project.go lines 21-27).  The
`Project` pointer is modelled as a value: every store built by
`NewProjectDatabase` carries one. -/
structure MProjectDatabase where
  project : Project
  tasks : List Task
  nextID : Int
  lastModified : Time
  version : Int
deriving Repr, DecidableEq

/-- `models.NewProjectDatabase` (models/project.go lines 164-172). -/
def MNewProjectDatabase (project : Project) (now : Time) : MProjectDatabase :=
  { project := project
    tasks := []
    nextID := 1
    lastModified := now
    version := 1 }

/-- `models.ProjectDatabase.AddTask` (models/project.go lines 211-233):
validate the incoming task first, then overwrite its id with `NextID`,
append, and bump the metadata. -/
def MProjectDatabase.addTask (db : MProjectDatabase) (task : Task)
    (now : Time) : Except String MProjectDatabase :=
  match task.Validate with
  | .error e => .error ("invalid task: " ++ e)
  | .ok () =>
    let task := { task with id := db.nextID }
    let tasks := db.tasks ++ [task]
    .ok { db with
          tasks := tasks
          nextID := db.nextID + 1
          lastModified := now
          version := db.version + 1
          project := db.project.updateTaskCount tasks.length }

/-- Replace the first stored task whose id matches `task.ID`
(models/project.go lines 257-264). -/
def replaceTaskByID (tasks : List Task) (task : Task) : Option (List Task) :=
  match tasks with
  | [] => none
  | t :: rest =>
    if t.id = task.id then some (task :: rest)
    else (replaceTaskByID rest task).map (t :: ·)

/-- `models.ProjectDatabase.UpdateTask` (models/project.go lines 247-267):
re-validate the replacement, then swap it in place of the stored task with
the same id; `NotFound` if no stored task matches. -/
def MProjectDatabase.updateTask (db : MProjectDatabase) (task : Task)
    (now : Time) : Except String MProjectDatabase :=
  match task.Validate with
  | .error e => .error ("invalid task: " ++ e)
  | .ok () =>
    match replaceTaskByID db.tasks task with
    | some tasks =>
      .ok { db with tasks := tasks, lastModified := now, version := db.version + 1 }
    | none => .error "task not found"

/-- Remove the first stored task with the given id
(models/project.go lines 271-275). -/
def removeTaskByID (tasks : List Task) (id : Int) : Option (List Task) :=
  match tasks with
  | [] => none
  | t :: rest =>
    if t.id = id then some rest
    else (removeTaskByID rest id).map (t :: ·)

/-- `models.ProjectDatabase.DeleteTask` (models/project.go lines 270-286). -/
def MProjectDatabase.deleteTask (db : MProjectDatabase) (id : Int)
    (now : Time) : Except String MProjectDatabase :=
  match removeTaskByID db.tasks id with
  | some tasks =>
    .ok { db with
          tasks := tasks
          lastModified := now
          version := db.version + 1
          project := db.project.updateTaskCount tasks.length }
  | none => .error "task not found"

/-- `models.ProjectDatabase.ListTasks` (models/project.go lines 289-308):
a `nil` filter returns clones of everything, otherwise clones of the
matching tasks in store order. -/
def MProjectDatabase.listTasks (db : MProjectDatabase)
    (filter : Option TaskFilter) : List Task :=
  match filter with
  | none => db.tasks.map Task.Clone
  | some f => (db.tasks.filter fun t => f.Matches t).map Task.Clone

/-- `models.caseInsensitiveEqual` (models/project.go lines 389-411): same
byte-wise folded comparison as `database.caseInsensitiveMatch`. -/
def caseInsensitiveEqual : GoStr → GoStr → Bool
  | [], [] => true
  | c1 :: s1, c2 :: s2 =>
    lowerByte c1 == lowerByte c2 && caseInsensitiveEqual s1 s2
  | _, _ => false

/-- `models.containsIgnoreCase` (models/project.go lines 369-386). -/
def containsIgnoreCase (s substr : GoStr) : Bool :=
  if substr.length = 0 then true
  else if s.length < substr.length then false
  else
    (List.range (s.length - substr.length + 1)).any fun i =>
      caseInsensitiveEqual ((s.drop i).take substr.length) substr

/-- `models.ProjectDatabase.SearchTasks` (models/project.go lines 311-321). -/
def MProjectDatabase.searchTasks (db : MProjectDatabase) (query : GoStr) :
    List Task :=
  (db.tasks.filter fun task =>
    containsIgnoreCase task.title query ||
      containsIgnoreCase task.description query).map Task.Clone

/-! ## internal/database/locks.go : the lock manager

`AcquireLock` interacts with the filesystem and the process table.  The
embedding makes those interactions explicit parameters:

* `existing` — the result of the initial `readLockFile` (`none` when the
  lock file is absent or unreadable, which the code treats identically by
  skipping the whole existing-lock branch);
* `alive` — the `isProcessRunning` probe (signal 0);
* `removeOk` — whether the `os.Remove` of a stale/orphaned lock succeeds;
* `attempts k` — whether the `k`-th `writeLockFile` (O_EXCL create)
  succeeds; iteration `k` of the retry loop runs at elapsed time
  `100·k` ms, with file operations taking negligible modelled time, and
  runs only while `100·k < timeoutMs`. -/

/-- `database.LockInfo` (locks.go lines 28-32), minus the path. -/
structure LockInfo where
  processID : Nat
  createdAt : Time
deriving Repr, DecidableEq

/-- The five-minute staleness threshold of locks.go line 46, in ms. -/
def staleThresholdMs : Nat := 5 * 60 * 1000

/-- Outcome of `AcquireLock`, with the ghost field `removedExisting`
recording whether the pre-existing lock file was deleted during the call. -/
inductive AcquireOutcome where
  | acquired (li : LockInfo) (attempt : Nat)
  | lockedBy (pid : Nat)
  | removeFailed
  | timeout
deriving Repr, DecidableEq

structure AcquireResult where
  outcome : AcquireOutcome
  removedExisting : Bool
deriving Repr, DecidableEq

/-- The retry loop of locks.go lines 72-80: attempt `k` runs iff
`100·k < timeoutMs`; the first successful exclusive create wins. -/
def firstCreateSuccess (attempts : Nat → Bool) (timeoutMs : Nat) :
    Option Nat :=
  (List.range ((timeoutMs + 99) / 100)).find? fun k => attempts k

/-- The claim phase of `AcquireLock` (locks.go lines 64-82): loop the
exclusive create until the timeout.  `removed` is the ghost flag saying
whether the check phase deleted a pre-existing lock file. -/
def acquireLoop (myPid : Nat) (now : Time) (attempts : Nat → Bool)
    (timeoutMs : Nat) (removed : Bool) : AcquireResult :=
  match firstCreateSuccess attempts timeoutMs with
  | some k => ⟨.acquired ⟨myPid, now⟩ k, removed⟩
  | none => ⟨.timeout, removed⟩

/-- `database.LockManager.AcquireLock` (locks.go lines 35-83). -/
def acquireLock (existing : Option LockInfo) (now : Time)
    (alive : Nat → Bool) (removeOk : Bool) (myPid : Nat)
    (attempts : Nat → Bool) (timeoutMs : Nat) : AcquireResult :=
  match existing with
  | none => acquireLoop myPid now attempts timeoutMs false
  | some lock =>
    if now - lock.createdAt > staleThresholdMs then
      -- stale: removed unconditionally, no liveness probe
      if removeOk then acquireLoop myPid now attempts timeoutMs true
      else ⟨.removeFailed, false⟩
    else if alive lock.processID then
      -- genuinely held: fail immediately
      ⟨.lockedBy lock.processID, false⟩
    else
      -- orphaned: holder dead, remove and proceed
      if removeOk then acquireLoop myPid now attempts timeoutMs true
      else ⟨.removeFailed, false⟩

/-! ## Document codec : Save (project.go lines 74-102) and
LoadProjectDatabase (project.go lines 48-71)

`json.MarshalIndent` over `database.ProjectDatabase` is deterministic and
writes every field, so the bytes of the file are in bijection with the
field values; the file content is therefore modelled as the mirror record
`JsonDoc`, with `marshal`/`unmarshal` converting between store and
document.  Two saves producing different `JsonDoc`s produce different
bytes on disk. -/

/-- The parsed content of `projects/<name>.json`. -/
structure JsonDoc where
  projectName : GoStr
  projectPath : GoStr
  tasks : List TaskEntry
  nextID : Nat
  lastModified : Time
  version : Nat
deriving Repr, DecidableEq

/-- `json.MarshalIndent(db, "", "  ")`: record the field values. -/
def marshal (db : DBProjectDatabase) : JsonDoc :=
  { projectName := db.projectName
    projectPath := db.projectPath
    tasks := db.tasks
    nextID := db.nextID
    lastModified := db.lastModified
    version := db.version }

/-- `json.Unmarshal` into `database.ProjectDatabase`. -/
def unmarshal (doc : JsonDoc) : DBProjectDatabase :=
  { projectName := doc.projectName
    projectPath := doc.projectPath
    tasks := doc.tasks
    nextID := doc.nextID
    lastModified := doc.lastModified
    version := doc.version }

/-- The slice of the filesystem `Save`/`Load` touch: the database file and
its sibling `.tmp` file, each absent or holding a document. -/
structure FsState where
  file : Option JsonDoc
  temp : Option JsonDoc
deriving Repr, DecidableEq

/-- Result of a `Save` call: the error (if any), the receiver as the call
leaves it (Go mutates `db` in place), and the filesystem afterwards. -/
structure SaveResult where
  err : Option String
  db : DBProjectDatabase
  fs : FsState
deriving Repr, DecidableEq

/-- `database.ProjectDatabase.Save` (project.go lines 74-102).
`mkdirOk`, `writeOk`, `renameOk` are the success of the three fallible
filesystem steps.  The version bump and `LastModified` stamp happen
before any file is written and are never rolled back. -/
def save (db : DBProjectDatabase) (fs : FsState) (now : Time)
    (mkdirOk writeOk renameOk : Bool) : SaveResult :=
  if ¬ mkdirOk then ⟨some "failed to create directory", db, fs⟩
  else
    let db := { db with lastModified := now, version := db.version + 1 }
    if ¬ writeOk then ⟨some "failed to write temporary file", db, fs⟩
    else
      let fs := { fs with temp := some (marshal db) }
      if renameOk then ⟨none, db, { file := some (marshal db), temp := none }⟩
      else ⟨some "failed to rename temporary file", db, { fs with temp := none }⟩

/-- `database.ProjectDatabase.Validate` (project.go lines 245-270) and
`validateTask` (project.go lines 273-311), as the load-time check. -/
def validateTaskEntry (task : TaskEntry) : Except String Unit :=
  if task.id = 0 then .error "task ID must be positive"
  else if task.title = [] then .error "task title cannot be empty"
  else if ¬ IsValidStatus task.status then .error "invalid status"
  else if ¬ IsValidPriority task.priority then .error "invalid priority"
  else if task.createdAt = 0 then .error "created_at cannot be zero"
  else if task.updatedAt = 0 then .error "updated_at cannot be zero"
  else .ok ()

def DBProjectDatabase.Validate (db : DBProjectDatabase) :
    Except String Unit :=
  if db.projectName = [] then .error "project name cannot be empty"
  else if db.projectPath = [] then .error "project path cannot be empty"
  else if db.nextID < 1 then .error "next_id must be at least 1"
  else if db.version < 1 then .error "version must be at least 1"
  else if db.tasks.all (fun t => (validateTaskEntry t).toBool) then .ok ()
  else .error "invalid task"

/-- `database.LoadProjectDatabase` (project.go lines 48-71): missing file
is an error, otherwise parse and validate. -/
def loadProjectDatabase (fs : FsState) : Except String DBProjectDatabase :=
  match fs.file with
  | none => .error "project database file does not exist"
  | some doc =>
    let db := unmarshal doc
    match db.Validate with
    | .ok () => .ok db
    | .error _ => .error "invalid project database"

/-! ## Specification predicates and reachability relations -/

/-- The spec's matching relation: `q` occurs in `s` as a substring under
ASCII-only case-insensitive comparison. -/
def SpecContainsCI (s q : GoStr) : Prop :=
  ∃ i, i + q.length ≤ s.length ∧
    ((s.drop i).take q.length).map lowerByte = q.map lowerByte

/-- Stores reachable from a freshly initialized typed store by the public
mutation operations. -/
inductive MReach : MProjectDatabase → Prop where
  | init (p : Project) (now : Time) : MReach (MNewProjectDatabase p now)
  | add {db db' : MProjectDatabase} (task : Task) (now : Time) :
      MReach db → db.addTask task now = .ok db' → MReach db'
  | update {db db' : MProjectDatabase} (task : Task) (now : Time) :
      MReach db → db.updateTask task now = .ok db' → MReach db'
  | delete {db db' : MProjectDatabase} (id : Int) (now : Time) :
      MReach db → db.deleteTask id now = .ok db' → MReach db'

/-- Stores reachable from a freshly initialized string-typed store,
together with the ghost list of every identifier ever assigned, in order
of assignment. -/
inductive DBReach : DBProjectDatabase → List Nat → Prop where
  | init (name path : GoStr) (now : Time) :
      DBReach (NewProjectDatabase name path now) []
  | add {db db' : DBProjectDatabase} {t : TaskEntry} {ev : List Nat}
      (title description priority : GoStr) (now : Time) :
      DBReach db ev → db.addTask title description priority now = .ok (t, db') →
      DBReach db' (ev ++ [t.id])
  | update {db db' : DBProjectDatabase} {ev : List Nat}
      (id : Nat) (u : TaskUpdates) (now : Time) :
      DBReach db ev → db.updateTask id u now = .ok db' → DBReach db' ev
  | delete {db db' : DBProjectDatabase} {ev : List Nat} (id : Nat) :
      DBReach db ev → db.deleteTask id = .ok db' → DBReach db' ev

/-! ## Lemmas about the case-insensitive search -/

theorem caseInsensitiveMatch_iff :
    ∀ s1 s2 : GoStr,
      caseInsensitiveMatch s1 s2 = true ↔ s1.map lowerByte = s2.map lowerByte
  | [], [] => by simp [caseInsensitiveMatch]
  | [], _ :: _ => by simp [caseInsensitiveMatch]
  | _ :: _, [] => by simp [caseInsensitiveMatch]
  | c1 :: s1, c2 :: s2 => by
    simp [caseInsensitiveMatch, caseInsensitiveMatch_iff s1 s2]

theorem caseInsensitiveEqual_iff :
    ∀ s1 s2 : GoStr,
      caseInsensitiveEqual s1 s2 = true ↔ s1.map lowerByte = s2.map lowerByte
  | [], [] => by simp [caseInsensitiveEqual]
  | [], _ :: _ => by simp [caseInsensitiveEqual]
  | _ :: _, [] => by simp [caseInsensitiveEqual]
  | c1 :: s1, c2 :: s2 => by
    simp [caseInsensitiveEqual, caseInsensitiveEqual_iff s1 s2]

theorem anyMatch_iff (s q : GoStr) (h : q.length ≤ s.length) :
    anyMatch s q = true ↔ SpecContainsCI s q := by
  unfold anyMatch SpecContainsCI
  simp only [List.any_eq_true, List.mem_range, caseInsensitiveMatch_iff]
  constructor
  · rintro ⟨i, hi, hm⟩
    exact ⟨i, by omega, hm⟩
  · rintro ⟨i, hi, hm⟩
    exact ⟨i, by omega, hm⟩

theorem containsIgnoreCase_iff (s q : GoStr) :
    containsIgnoreCase s q = true ↔ SpecContainsCI s q := by
  unfold containsIgnoreCase
  split_ifs with h0 hlt
  · constructor
    · intro _
      refine ⟨0, by omega, ?_⟩
      have hq : q = [] := List.length_eq_zero.mp h0
      subst hq; simp
    · intro _; rfl
  · constructor
    · intro h; simp at h
    · rintro ⟨i, hi, _⟩; omega
  · simp only [List.any_eq_true, List.mem_range, caseInsensitiveEqual_iff,
      SpecContainsCI]
    constructor
    · rintro ⟨i, hi, hm⟩
      exact ⟨i, by omega, hm⟩
    · rintro ⟨i, hi, hm⟩
      exact ⟨i, by omega, hm⟩

theorem contains_iff (s q : GoStr) :
    contains s q = true ↔
      (s = q ∨ (q.length < s.length ∧ SpecContainsCI s q)) := by
  unfold contains
  by_cases hsq : s = q
  · subst hsq; simp
  · have hbeq : (s == q) = false := beq_eq_false_iff_ne.mpr hsq
    simp only [hbeq, Bool.false_or, Bool.and_eq_true, decide_eq_true_eq,
      ge_iff_le, gt_iff_lt]
    constructor
    · rintro ⟨-, hgt, ham⟩
      exact Or.inr ⟨hgt, (anyMatch_iff s q (Nat.le_of_lt hgt)).mp ham⟩
    · rintro (rfl | ⟨hgt, hspec⟩)
      · exact absurd rfl hsq
      · exact ⟨Nat.le_of_lt hgt, hgt, (anyMatch_iff s q (Nat.le_of_lt hgt)).mpr hspec⟩

/-! ## Claim C7 : search semantics -/

/-- A store holding one task whose title "ABC" differs from the query
"abc" only in case, with the same length. -/
def dbC7 : DBProjectDatabase :=
  { projectName := gs "demo"
    projectPath := gs "/demo"
    tasks := [{ id := 1, title := gs "ABC", description := []
                status := gs "pending", priority := gs "medium"
                createdAt := 1, updatedAt := 1
                assignedTo := [], lockedBy := [], lockedAt := 0 }]
    nextID := 2
    lastModified := 1
    version := 1 }

/-- C7 counterexample: `database.SearchTasks` misses a task whose title
case-insensitively contains the query when the query has the same length
as the title: title "ABC", query "abc" — the title contains the query
under ASCII case-insensitive comparison, yet the search returns nothing,
so `searchTasks` does not return exactly the case-insensitive matches
for every pair of field and query. -/
theorem claim7_counterexample :
    dbC7.searchTasks (gs "abc") = [] ∧
    SpecContainsCI (gs "ABC") (gs "abc") ∧
    dbC7.tasks.length = 1 :=
  ⟨by decide, ⟨0, by decide, by decide⟩, by decide⟩

/-- C7 (amended): `models.SearchTasks` returns exactly the tasks whose
title or description contains the query under ASCII-only case-insensitive
comparison (including equal-length pairs), and an empty query matches
every task; `database.SearchTasks` matches a field case-insensitively
only when the query is strictly shorter than the field, requiring exact
byte equality when the lengths are equal. -/
theorem claim7_search_semantics :
    (∀ s q : GoStr, containsIgnoreCase s q = true ↔ SpecContainsCI s q) ∧
    (∀ db : MProjectDatabase, ∀ q, db.searchTasks q =
      (db.tasks.filter fun t =>
        containsIgnoreCase t.title q || containsIgnoreCase t.description q).map
          Task.Clone) ∧
    (∀ s q : GoStr, contains s q = true ↔
      (s = q ∨ (q.length < s.length ∧ SpecContainsCI s q))) ∧
    (∀ db : DBProjectDatabase, ∀ q, db.searchTasks q =
      db.tasks.filter fun t =>
        contains t.title q || contains t.description q) ∧
    (∀ s : GoStr, containsIgnoreCase s [] = true) ∧
    (∀ s : GoStr, contains s [] = true) := by
  refine ⟨containsIgnoreCase_iff, fun db q => rfl, contains_iff,
    fun db q => rfl, fun s => by simp [containsIgnoreCase], fun s => ?_⟩
  rcases s with - | ⟨c, s⟩
  · rfl
  · exact (contains_iff _ _).mpr (Or.inr ⟨by simp, 0, by simp, by simp⟩)

/-! ## Claim C2 : addTask title validation -/

/-- C2 counterexample: `addTask` with the whitespace-only title `" "`
succeeds — the code compares the title against the empty string without
trimming, so a title that is empty after trimming is not rejected. -/
theorem claim2_counterexample :
    ((NewProjectDatabase (gs "p") (gs "/p") 1).addTask (gs " ") [] [] 2).isOk
      = true ∧ gs " " ≠ [] := ⟨by decide, by decide⟩

/-- C2 (amended): `database.AddTask` fails with the validation error iff
the title is exactly the empty string (no trimming, so a whitespace-only
title is accepted); on failure no new store is produced (the receiver is
untouched: `next_id` and `version` keep their values and nothing is
appended), and on success exactly one task is appended, `next_id` is
incremented, and `version` is untouched (only `Save` bumps it). -/
theorem claim2_addTask_title_validation :
    (∀ (db : DBProjectDatabase) (d p : GoStr) (now : Time),
       db.addTask [] d p now = .error "task title cannot be empty") ∧
    (∀ (db : DBProjectDatabase) (title d p : GoStr) (now : Time),
       title ≠ [] → ∃ t db', db.addTask title d p now = .ok (t, db') ∧
         db'.nextID = db.nextID + 1 ∧ db'.version = db.version ∧
         db'.lastModified = db.lastModified ∧
         db'.tasks = db.tasks ++ [t]) := by
  constructor
  · intro db d p now
    rfl
  · intro db title d p now h
    unfold DBProjectDatabase.addTask
    rw [if_neg h]
    exact ⟨_, _, rfl, rfl, rfl, rfl, rfl⟩

/-- C2 witness: the success branch of the amended claim at a concrete
input. -/
theorem claim2_witness :
    ∃ t db',
      (NewProjectDatabase (gs "p") (gs "/p") 1).addTask (gs "a") [] [] 2
          = .ok (t, db') ∧
        db'.nextID = (NewProjectDatabase (gs "p") (gs "/p") 1).nextID + 1 ∧
        db'.version = (NewProjectDatabase (gs "p") (gs "/p") 1).version ∧
        db'.lastModified =
          (NewProjectDatabase (gs "p") (gs "/p") 1).lastModified ∧
        db'.tasks = (NewProjectDatabase (gs "p") (gs "/p") 1).tasks ++ [t] :=
  claim2_addTask_title_validation.2
    (NewProjectDatabase (gs "p") (gs "/p") 1) (gs "a") [] [] 2 (by decide)

/-! ## Claim C10 : priority pass-through -/

/-- C10: `database.AddTask` performs no enum validation of the priority:
an empty priority becomes "medium", and any non-empty priority string is
stored verbatim. -/
theorem claim10_priority_passthrough :
    ∀ (db : DBProjectDatabase) (title d : GoStr) (now : Time), title ≠ [] →
      (∃ t db', db.addTask title d [] now = .ok (t, db') ∧
        t.priority = gs "medium") ∧
      (∀ p : GoStr, p ≠ [] →
        ∃ t db', db.addTask title d p now = .ok (t, db') ∧ t.priority = p) := by
  intro db title d now h
  simp only [DBProjectDatabase.addTask, if_neg h]
  exact ⟨⟨_, _, rfl, by simp⟩, fun p hp => ⟨_, _, rfl, by simp [hp]⟩⟩

/-- C10 witness: a concrete call with the out-of-enum priority "urgent"
stores exactly that string, and a call with the empty priority stores
"medium". -/
theorem claim10_witness :
    (∃ t db',
      (NewProjectDatabase (gs "p") (gs "/p") 1).addTask (gs "a") [] [] 2
          = .ok (t, db') ∧ t.priority = gs "medium") ∧
    (∃ t db',
      (NewProjectDatabase (gs "p") (gs "/p") 1).addTask (gs "a") []
          (gs "urgent") 2 = .ok (t, db') ∧ t.priority = gs "urgent") :=
  ⟨(claim10_priority_passthrough _ (gs "a") [] 2 (by decide)).1,
   (claim10_priority_passthrough _ (gs "a") [] 2 (by decide)).2
     (gs "urgent") (by decide)⟩

/-! ## Claims C1 and C6 : lock acquisition policy -/

/-- Liveness/create oracle answering `true` for every pid or attempt. -/
def allTrue : Nat → Bool := fun _ => true

/-- Liveness/create oracle answering `false` for every pid or attempt. -/
def allFalse : Nat → Bool := fun _ => false

/-- C1 counterexample: with a genuinely held lock (holder pid 42 alive,
lock only 100ms old), `AcquireLock` returns the "locked by process" error
immediately — not a `Timeout` after retrying until the configured timeout
(here 30s), contradicting the claim that the loser only ever fails with
`Timeout` while the lock is genuinely held. -/
theorem claim1_counterexample :
    acquireLock (some ⟨42, 100⟩) 200 allTrue true 7 allTrue 30000
        = ⟨.lockedBy 42, false⟩ ∧
      AcquireOutcome.lockedBy 42 ≠ .timeout :=
  ⟨rfl, by decide⟩

/-- C1 (amended): when the initial check finds a lock that is neither
stale nor orphaned, `AcquireLock` fails immediately with a "locked by
process" error naming the holder — it never reaches the retry loop and
never reports `Timeout` in that case.  Only after the check passes (no
existing lock here; the stale/orphan removal cases reduce to it) is the
exclusive create retried every 100ms: if no attempt succeeds before the
timeout elapses the result is `Timeout`, and the first successful attempt
inside the window acquires the lock. -/
theorem claim1_acquire_policy :
    (∀ (lock : LockInfo) (now : Time) (alive : Nat → Bool) (removeOk : Bool)
        (myPid : Nat) (attempts : Nat → Bool) (timeoutMs : Nat),
       now - lock.createdAt ≤ staleThresholdMs →
       alive lock.processID = true →
       acquireLock (some lock) now alive removeOk myPid attempts timeoutMs
         = ⟨.lockedBy lock.processID, false⟩) ∧
    (∀ (now : Time) (alive : Nat → Bool) (removeOk : Bool) (myPid : Nat)
        (attempts : Nat → Bool) (timeoutMs : Nat),
       (∀ k, attempts k = false) →
       acquireLock none now alive removeOk myPid attempts timeoutMs
         = ⟨.timeout, false⟩) ∧
    (∀ (now : Time) (alive : Nat → Bool) (removeOk : Bool) (myPid : Nat)
        (attempts : Nat → Bool) (timeoutMs k : Nat),
       firstCreateSuccess attempts timeoutMs = some k →
       acquireLock none now alive removeOk myPid attempts timeoutMs
         = ⟨.acquired ⟨myPid, now⟩ k, false⟩) := by
  refine ⟨?_, ?_, ?_⟩
  · intro lock now alive removeOk myPid attempts timeoutMs h1 h2
    show (if now - lock.createdAt > staleThresholdMs then _ else _) = _
    rw [if_neg (show ¬ now - lock.createdAt > staleThresholdMs from
      fun hc => absurd h1 (Nat.not_le.mpr hc)), if_pos h2]
  · intro now alive removeOk myPid attempts timeoutMs h
    have hf : firstCreateSuccess attempts timeoutMs = none := by
      unfold firstCreateSuccess
      refine List.find?_eq_none.mpr fun k _ => ?_
      simp [h k]
    simp [acquireLock, acquireLoop, hf]
  · intro now alive removeOk myPid attempts timeoutMs k hf
    simp [acquireLock, acquireLoop, hf]

/-- C1 witness: the held-lock branch and the timeout branch at concrete
inputs. -/
theorem claim1_witness :
    acquireLock (some ⟨42, 100⟩) 200 allTrue true 7 allFalse 30000
        = ⟨.lockedBy 42, false⟩ ∧
    acquireLock none 200 allTrue true 7 allFalse 30000
        = ⟨.timeout, false⟩ :=
  ⟨claim1_acquire_policy.1 ⟨42, 100⟩ 200 allTrue true 7 allFalse 30000
      (by decide) rfl,
   claim1_acquire_policy.2.1 200 allTrue true 7 allFalse 30000 fun _ => rfl⟩

/-- C6: a lock older than the fixed 5-minute threshold is removed
unconditionally by a subsequent acquire: the removal happens and the
remainder of the call behaves exactly as if no lock file had existed,
for every liveness oracle — in particular when the recorded holder is
still alive.  No liveness check takes part in this step. -/
theorem claim6_stale_eviction :
    ∀ (lock : LockInfo) (now : Time) (alive alive' : Nat → Bool)
      (myPid : Nat) (attempts : Nat → Bool) (timeoutMs : Nat),
    staleThresholdMs < now - lock.createdAt →
    (acquireLock (some lock) now alive true myPid attempts
        timeoutMs).removedExisting = true ∧
    (acquireLock (some lock) now alive true myPid attempts timeoutMs).outcome
      = (acquireLock none now alive' true myPid attempts timeoutMs).outcome := by
  intro lock now alive alive' myPid attempts timeoutMs h
  simp only [acquireLock, if_pos h, if_pos rfl]
  cases hf : firstCreateSuccess attempts timeoutMs <;>
    simp [acquireLoop, hf]

/-- C6 witness: a lock 300001ms old whose holder (pid 42) is alive under
the `allTrue` probe is still evicted and re-acquired. -/
theorem claim6_witness :
    (acquireLock (some ⟨42, 0⟩) 300001 allTrue true 7 allTrue
        30000).removedExisting = true ∧
    (acquireLock (some ⟨42, 0⟩) 300001 allTrue true 7 allTrue 30000).outcome
      = (acquireLock none 300001 allTrue true 7 allTrue 30000).outcome :=
  claim6_stale_eviction ⟨42, 0⟩ 300001 allTrue allTrue 7 allTrue 30000
    (by decide)

/-! ## Claims C4 and C5 : codec atomicity and round-trip -/

theorem dbValidate_ok_iff (db : DBProjectDatabase) :
    db.Validate = .ok () ↔
      (db.projectName ≠ [] ∧ db.projectPath ≠ [] ∧ 1 ≤ db.nextID ∧
        1 ≤ db.version ∧
        db.tasks.all (fun t => (validateTaskEntry t).toBool) = true) := by
  unfold DBProjectDatabase.Validate
  split_ifs
  all_goals simp_all
  all_goals omega

theorem load_marshal (db : DBProjectDatabase) (h : db.Validate = .ok ()) :
    loadProjectDatabase ⟨some (marshal db), none⟩ = .ok db := by
  show (match db.Validate with
        | .ok () => Except.ok db
        | .error _ => Except.error "invalid project database") = .ok db
  rw [h]

/-- A concrete valid store used to exhibit the codec's behaviour. -/
def dbW4 : DBProjectDatabase :=
  { projectName := gs "demo"
    projectPath := gs "/demo"
    tasks := []
    nextID := 1
    lastModified := 1
    version := 1 }

/-- C4 counterexample: when the rename fails, `Save` reports an error, yet
the in-memory store has already been changed — its version was bumped
before the write and is not rolled back — so it is false that everything
observable is left as it was before the call. -/
theorem claim4_counterexample :
    (save dbW4 ⟨some (marshal dbW4), none⟩ 9 true true false).err ≠ none ∧
    (save dbW4 ⟨some (marshal dbW4), none⟩ 9 true true false).db.version
      ≠ dbW4.version :=
  ⟨by decide, by decide⟩

/-- C4 (amended): on rename failure `Save` removes the temporary file and
leaves the on-disk database file untouched, but the in-memory store is
not restored: its version has already been bumped by one and its
last-modified stamp rewritten (tasks and next_id are unchanged).  On full
success the file atomically becomes the serialization of the bumped
store and the temporary file is gone. -/
theorem claim4_save_rename_failure :
    ∀ (db : DBProjectDatabase) (fs : FsState) (now : Time),
      (save db fs now true true false).err
          = some "failed to rename temporary file" ∧
      (save db fs now true true false).fs.file = fs.file ∧
      (save db fs now true true false).fs.temp = none ∧
      (save db fs now true true false).db.version = db.version + 1 ∧
      (save db fs now true true false).db.lastModified = now ∧
      (save db fs now true true false).db.tasks = db.tasks ∧
      (save db fs now true true false).db.nextID = db.nextID ∧
      (save db fs now true true true).err = none ∧
      (save db fs now true true true).fs.temp = none ∧
      (save db fs now true true true).fs.file
        = some (marshal (save db fs now true true true).db) :=
  fun _ _ _ => ⟨rfl, rfl, rfl, rfl, rfl, rfl, rfl, rfl, rfl, rfl⟩

/-- First save of the C5 scenario. -/
def saveW5a : SaveResult := save dbW4 ⟨none, none⟩ 2 true true true

/-- Second save of the C5 scenario, continuing from the first. -/
def saveW5b : SaveResult := save saveW5a.db saveW5a.fs 3 true true true

/-- C5 counterexample: a `load∘save∘load` cycle is never byte-for-byte
stable — each save bumps the serialized version field, so the file
written by the second save differs from the file it was loaded from. -/
theorem claim5_counterexample :
    loadProjectDatabase saveW5a.fs = .ok saveW5a.db ∧
    saveW5b.err = none ∧
    saveW5b.fs.file ≠ saveW5a.fs.file :=
  ⟨rfl, rfl, by decide⟩

/-- C5 (amended): for every valid store, `load(save(S))` succeeds and
equals the saved store field-for-field: tasks (order included), next_id,
project name and path round-trip unchanged, while version is bumped by
exactly one per save and last-modified is refreshed to the save time.
Byte-for-byte stability of `load∘save∘load` does not hold (see the
counterexample), precisely because of that version bump. -/
theorem claim5_roundtrip :
    ∀ (db : DBProjectDatabase) (fs : FsState) (now : Time),
      db.Validate = .ok () →
      (save db fs now true true true).err = none ∧
      loadProjectDatabase (save db fs now true true true).fs
        = .ok (save db fs now true true true).db ∧
      (save db fs now true true true).db.tasks = db.tasks ∧
      (save db fs now true true true).db.nextID = db.nextID ∧
      (save db fs now true true true).db.projectName = db.projectName ∧
      (save db fs now true true true).db.projectPath = db.projectPath ∧
      (save db fs now true true true).db.version = db.version + 1 ∧
      (save db fs now true true true).db.lastModified = now := by
  intro db fs now hv
  have hv' : ({ db with lastModified := now, version := db.version + 1 }
      : DBProjectDatabase).Validate = .ok () := by
    rw [dbValidate_ok_iff] at hv ⊢
    obtain ⟨a, b, c, d, e⟩ := hv
    exact ⟨a, b, c, Nat.succ_le_succ (Nat.zero_le _), e⟩
  exact ⟨rfl, load_marshal _ hv', rfl, rfl, rfl, rfl, rfl, rfl⟩

/-- C5 witness: the round-trip at the concrete valid store `dbW4`. -/
theorem claim5_witness :
    (save dbW4 ⟨none, none⟩ 2 true true true).err = none ∧
    loadProjectDatabase (save dbW4 ⟨none, none⟩ 2 true true true).fs
      = .ok (save dbW4 ⟨none, none⟩ 2 true true true).db ∧
    (save dbW4 ⟨none, none⟩ 2 true true true).db.tasks = dbW4.tasks ∧
    (save dbW4 ⟨none, none⟩ 2 true true true).db.nextID = dbW4.nextID ∧
    (save dbW4 ⟨none, none⟩ 2 true true true).db.projectName
      = dbW4.projectName ∧
    (save dbW4 ⟨none, none⟩ 2 true true true).db.projectPath
      = dbW4.projectPath ∧
    (save dbW4 ⟨none, none⟩ 2 true true true).db.version = dbW4.version + 1 ∧
    (save dbW4 ⟨none, none⟩ 2 true true true).db.lastModified = 2 :=
  claim5_roundtrip dbW4 ⟨none, none⟩ 2 rfl

/-! ## Claim C8 : listTasks filtering -/

/-- C8: `ListTasks` with a filter returns exactly the tasks satisfying
the conjunction of the present predicates, in store order; with no
filter it returns every task; and the returned tasks are clones whose
every field equals the stored task's (a complete copy, so in the Go
original mutating a returned task cannot reach the store). -/
theorem claim8_listTasks_filter :
    (∀ t : Task, Task.Clone t = t) ∧
    (∀ db : MProjectDatabase, db.listTasks none = db.tasks) ∧
    (∀ (db : MProjectDatabase) (f : TaskFilter),
       db.listTasks (some f) = db.tasks.filter fun t => f.Matches t) ∧
    (∀ (f : TaskFilter) (t : Task),
       f.Matches t = true ↔
         ((∀ s, f.status = some s → t.status = s) ∧
          (∀ p, f.priority = some p → t.priority = p) ∧
          (∀ a, f.assignedTo = some a → t.assignedTo = a) ∧
          (∀ l, f.lockedBy = some l → t.lockedBy = l))) := by
  have hclone : ∀ t : Task, Task.Clone t = t := fun t => rfl
  have hcid : Task.Clone = id := funext hclone
  refine ⟨hclone, ?_, ?_, ?_⟩
  · intro db
    show db.tasks.map Task.Clone = db.tasks
    rw [hcid, List.map_id]
  · intro db f
    show (db.tasks.filter fun t => f.Matches t).map Task.Clone = _
    rw [hcid, List.map_id]
  · intro f t
    obtain ⟨os, op, oa, ol⟩ := f
    simp only [TaskFilter.Matches, Bool.and_eq_true]
    cases os <;> cases op <;> cases oa <;> cases ol <;>
      simp [beq_iff_eq, and_assoc]

/-- C8 witness: a status-only filter accepts a matching concrete task. -/
theorem claim8_witness :
    TaskFilter.Matches ⟨some (gs "pending"), none, none, none⟩
      ⟨1, gs "t", [], gs "pending", gs "low", 1, 1, [], [], 0⟩ = true :=
  (claim8_listTasks_filter.2.2.2 ⟨some (gs "pending"), none, none, none⟩
      ⟨1, gs "t", [], gs "pending", gs "low", 1, 1, [], [], 0⟩).mpr
    ⟨fun _ hs => by cases hs; rfl, fun _ hp => Option.noConfusion hp,
     fun _ ha => Option.noConfusion ha, fun _ hl => Option.noConfusion hl⟩

/-! ## Claim C3 : typed-store invariants -/

theorem task_validate_ok_iff (t : Task) :
    t.Validate = .ok () ↔
      (0 < t.id ∧ t.title ≠ [] ∧ IsValidStatus t.status = true ∧
        IsValidPriority t.priority = true ∧ t.createdAt ≠ 0 ∧
        t.updatedAt ≠ 0 ∧ t.createdAt ≤ t.updatedAt) := by
  unfold Task.Validate
  split_ifs
  all_goals simp_all

theorem replaceTaskByID_mem :
    ∀ (tasks : List Task) (task : Task) (tasks' : List Task),
      replaceTaskByID tasks task = some tasks' →
      ∀ t ∈ tasks', t ∈ tasks ∨ t = task
  | [], task, tasks', h => by simp [replaceTaskByID] at h
  | t0 :: rest, task, tasks', h => by
    unfold replaceTaskByID at h
    split_ifs at h with h0
    · cases h
      intro t ht
      rcases List.mem_cons.mp ht with rfl | ht
      · exact Or.inr rfl
      · exact Or.inl (List.mem_cons_of_mem _ ht)
    · cases hr : replaceTaskByID rest task with
      | none => rw [hr] at h; cases h
      | some rest' =>
        rw [hr] at h
        cases h
        intro t ht
        rcases List.mem_cons.mp ht with rfl | ht
        · exact Or.inl (List.mem_cons_self _ _)
        · rcases replaceTaskByID_mem rest task rest' hr t ht with h' | h'
          · exact Or.inl (List.mem_cons_of_mem _ h')
          · exact Or.inr h'

theorem replaceTaskByID_map_id :
    ∀ (tasks : List Task) (task : Task) (tasks' : List Task),
      replaceTaskByID tasks task = some tasks' →
      tasks'.map (fun t => t.id) = tasks.map (fun t => t.id)
  | [], task, tasks', h => by simp [replaceTaskByID] at h
  | t0 :: rest, task, tasks', h => by
    unfold replaceTaskByID at h
    split_ifs at h with h0
    · cases h
      simp [h0]
    · cases hr : replaceTaskByID rest task with
      | none => rw [hr] at h; cases h
      | some rest' =>
        rw [hr] at h
        cases h
        simp [replaceTaskByID_map_id rest task rest' hr]

theorem replaceTaskByID_none :
    ∀ (tasks : List Task) (task : Task),
      (∀ t ∈ tasks, t.id ≠ task.id) → replaceTaskByID tasks task = none
  | [], task, _ => rfl
  | t0 :: rest, task, h => by
    unfold replaceTaskByID
    rw [if_neg (h t0 (List.mem_cons_self _ _)),
      replaceTaskByID_none rest task fun t ht => h t (List.mem_cons_of_mem _ ht)]
    rfl

theorem removeTaskByID_mem :
    ∀ (tasks : List Task) (id : Int) (tasks' : List Task),
      removeTaskByID tasks id = some tasks' → ∀ t ∈ tasks', t ∈ tasks
  | [], id, tasks', h => by simp [removeTaskByID] at h
  | t0 :: rest, id, tasks', h => by
    unfold removeTaskByID at h
    split_ifs at h with h0
    · cases h
      intro t ht
      exact List.mem_cons_of_mem _ ht
    · cases hr : removeTaskByID rest id with
      | none => rw [hr] at h; cases h
      | some rest' =>
        rw [hr] at h
        cases h
        intro t ht
        rcases List.mem_cons.mp ht with rfl | ht
        · exact List.mem_cons_self _ _
        · exact List.mem_cons_of_mem _ (removeTaskByID_mem rest id rest' hr t ht)

theorem maddTask_ok {db db' : MProjectDatabase} {task : Task} {now : Time}
    (h : db.addTask task now = .ok db') :
    task.Validate = .ok () ∧
    db'.tasks = db.tasks ++ [{ task with id := db.nextID }] ∧
    db'.nextID = db.nextID + 1 := by
  unfold MProjectDatabase.addTask at h
  cases hv : task.Validate with
  | error e => rw [hv] at h; cases h
  | ok u =>
    cases u
    rw [hv] at h
    cases h
    exact ⟨rfl, rfl, rfl⟩

theorem mupdateTask_ok {db db' : MProjectDatabase} {task : Task} {now : Time}
    (h : db.updateTask task now = .ok db') :
    task.Validate = .ok () ∧
    ∃ tasks', replaceTaskByID db.tasks task = some tasks' ∧
      db'.tasks = tasks' ∧ db'.nextID = db.nextID := by
  unfold MProjectDatabase.updateTask at h
  cases hv : task.Validate with
  | error e => rw [hv] at h; cases h
  | ok u =>
    cases u
    rw [hv] at h
    cases hr : replaceTaskByID db.tasks task with
    | none => rw [hr] at h; cases h
    | some tasks' =>
      rw [hr] at h
      cases h
      exact ⟨rfl, tasks', rfl, rfl, rfl⟩

theorem mdeleteTask_ok {db db' : MProjectDatabase} {id : Int} {now : Time}
    (h : db.deleteTask id now = .ok db') :
    ∃ tasks', removeTaskByID db.tasks id = some tasks' ∧
      db'.tasks = tasks' ∧ db'.nextID = db.nextID := by
  unfold MProjectDatabase.deleteTask at h
  cases hr : removeTaskByID db.tasks id with
  | none => rw [hr] at h; cases h
  | some tasks' =>
    rw [hr] at h
    cases h
    exact ⟨tasks', rfl, rfl, rfl⟩

theorem mreach_invariant {db : MProjectDatabase} (h : MReach db) :
    1 ≤ db.nextID ∧ ∀ t ∈ db.tasks, t.Validate = .ok () := by
  induction h with
  | init p now => exact ⟨le_refl 1, by simp [MNewProjectDatabase]⟩
  | @add dbPrev dbNew task now hr hop ih =>
    obtain ⟨hv, htasks, hnext⟩ := maddTask_ok hop
    refine ⟨?_, ?_⟩
    · rw [hnext]
      have h1 := ih.1
      omega
    · rw [htasks]
      intro t ht
      rcases List.mem_append.mp ht with ht | ht
      · exact ih.2 t ht
      · have ht' : t = { task with id := dbPrev.nextID } := by simpa using ht
        subst ht'
        have hv' := (task_validate_ok_iff task).mp hv
        refine (task_validate_ok_iff _).mpr
          ⟨?_, hv'.2.1, hv'.2.2.1, hv'.2.2.2.1, hv'.2.2.2.2.1,
            hv'.2.2.2.2.2.1, hv'.2.2.2.2.2.2⟩
        show (0 : Int) < dbPrev.nextID
        have h1 := ih.1
        omega
  | update task now hr hop ih =>
    obtain ⟨hv, tasks', hrep, htasks, hnext⟩ := mupdateTask_ok hop
    refine ⟨by rw [hnext]; exact ih.1, ?_⟩
    rw [htasks]
    intro t ht
    rcases replaceTaskByID_mem _ _ _ hrep t ht with h' | h'
    · exact ih.2 t h'
    · subst h'
      exact hv
  | delete id now hr hop ih =>
    obtain ⟨tasks', hrem, htasks, hnext⟩ := mdeleteTask_ok hop
    refine ⟨by rw [hnext]; exact ih.1, ?_⟩
    rw [htasks]
    intro t ht
    exact ih.2 t (removeTaskByID_mem _ _ _ hrem t ht)

/-- C3: in every store reachable from a fresh typed store by addTask,
updateTask and deleteTask, every task satisfies the Task invariants
(non-empty title, enumerated status and priority, `created_at ≤
updated_at`, positive id); `updateTask` commits only a task that passed
re-validation, preserves the stored identifiers, and fails with the
not-found error when the identifier is unknown. -/
theorem claim3_store_invariants :
    (∀ db : MProjectDatabase, MReach db → ∀ t ∈ db.tasks,
       t.title ≠ [] ∧ IsValidStatus t.status = true ∧
       IsValidPriority t.priority = true ∧ t.createdAt ≤ t.updatedAt ∧
       0 < t.id) ∧
    (∀ (db : MProjectDatabase) (task : Task) (now : Time)
       (db' : MProjectDatabase),
       db.updateTask task now = .ok db' →
       task.Validate = .ok () ∧
       db'.tasks.map (fun t => t.id) = db.tasks.map (fun t => t.id)) ∧
    (∀ (db : MProjectDatabase) (task : Task) (now : Time),
       task.Validate = .ok () → (∀ t ∈ db.tasks, t.id ≠ task.id) →
       db.updateTask task now = .error "task not found") := by
  refine ⟨?_, ?_, ?_⟩
  · intro db hr t ht
    have hv := (task_validate_ok_iff t).mp ((mreach_invariant hr).2 t ht)
    exact ⟨hv.2.1, hv.2.2.1, hv.2.2.2.1, hv.2.2.2.2.2.2, hv.1⟩
  · intro db task now db' h
    obtain ⟨hv, tasks', hrep, htasks, -⟩ := mupdateTask_ok h
    exact ⟨hv, by rw [htasks]; exact replaceTaskByID_map_id _ _ _ hrep⟩
  · intro db task now hv hunk
    unfold MProjectDatabase.updateTask
    rw [hv, replaceTaskByID_none db.tasks task hunk]

/-- A concrete project for the C3 witness. -/
def projW : Project := ⟨gs "demo", gs "/demo", 1, 1, 0, []⟩

/-- A concrete valid task for the C3 witness. -/
def taskW : Task := ⟨1, gs "Fix", [], gs "pending", gs "high", 1, 2, [], [], 0⟩

/-- The typed store after adding `taskW` to a fresh store. -/
def dbM1 : MProjectDatabase :=
  { project := projW.updateTaskCount 1
    tasks := [{ taskW with id := 1 }]
    nextID := 2
    lastModified := 3
    version := 2 }

theorem dbM1_step : (MNewProjectDatabase projW 1).addTask taskW 3 = .ok dbM1 :=
  rfl

/-- C3 witness: the invariants hold for the task stored by a concrete
addTask on a fresh store. -/
theorem claim3_witness :
    ({ taskW with id := 1 } : Task).title ≠ [] ∧
    IsValidStatus ({ taskW with id := 1 } : Task).status = true ∧
    IsValidPriority ({ taskW with id := 1 } : Task).priority = true ∧
    ({ taskW with id := 1 } : Task).createdAt
        ≤ ({ taskW with id := 1 } : Task).updatedAt ∧
    (0 : Int) < ({ taskW with id := 1 } : Task).id :=
  claim3_store_invariants.1 dbM1
    (MReach.add taskW 3 (MReach.init projW 1) dbM1_step)
    { taskW with id := 1 } (by simp [dbM1])

/-! ## Claim C9 : identifier monotonicity -/

theorem dbAddTask_ok {db db' : DBProjectDatabase} {t : TaskEntry}
    {title d p : GoStr} {now : Time}
    (h : db.addTask title d p now = .ok (t, db')) :
    t.id = db.nextID ∧ db'.nextID = db.nextID + 1 ∧
    db'.tasks = db.tasks ++ [t] := by
  unfold DBProjectDatabase.addTask at h
  split_ifs at h <;> cases h <;> exact ⟨rfl, rfl, rfl⟩

theorem dbUpdateTask_ok {db db' : DBProjectDatabase} {id : Nat}
    {u : TaskUpdates} {now : Time}
    (h : db.updateTask id u now = .ok db') : db'.nextID = db.nextID := by
  unfold DBProjectDatabase.updateTask at h
  cases hr : updateFirst db.tasks id u now with
  | none => rw [hr] at h; cases h
  | some tasks => rw [hr] at h; cases h; rfl

theorem dbDeleteTask_ok {db db' : DBProjectDatabase} {id : Nat}
    (h : db.deleteTask id = .ok db') : db'.nextID = db.nextID := by
  unfold DBProjectDatabase.deleteTask at h
  cases hr : removeFirst db.tasks id with
  | none => rw [hr] at h; cases h
  | some tasks => rw [hr] at h; cases h; rfl

theorem dbreach_invariant {db : DBProjectDatabase} {ev : List Nat}
    (h : DBReach db ev) :
    ev = List.range' 1 ev.length ∧ db.nextID = ev.length + 1 := by
  induction h with
  | init name path now => exact ⟨rfl, rfl⟩
  | @add dbPrev dbNew t ev title d p now hr hop ih =>
    obtain ⟨hid, hnext, -⟩ := dbAddTask_ok hop
    obtain ⟨ih1, ih2⟩ := ih
    constructor
    · have hlen : (ev ++ [t.id]).length = ev.length + 1 := by simp
      rw [hlen, List.range'_concat, ← ih1, hid, ih2]
      simp [Nat.add_comm]
    · rw [hnext, ih2, List.length_append]
      simp
  | update id u now hr hop ih =>
    exact ⟨ih.1, by rw [dbUpdateTask_ok hop]; exact ih.2⟩
  | delete id hr hop ih =>
    exact ⟨ih.1, by rw [dbDeleteTask_ok hop]; exact ih.2⟩

/-- C9: in every store reachable from a fresh store, the identifiers ever
assigned are exactly `1, …, N` in order of assignment (`ev` ghost-records
them), `next_id` is strictly greater than every identifier ever assigned,
and any further successful addTask assigns `next_id` — an identifier never
assigned before, so deleted identifiers are never reused. -/
theorem claim9_id_monotonicity :
    ∀ (db : DBProjectDatabase) (ev : List Nat), DBReach db ev →
      ev = List.range' 1 ev.length ∧
      (∀ i ∈ ev, i < db.nextID) ∧
      (∀ (title d p : GoStr) (now : Time) (t : TaskEntry)
         (db' : DBProjectDatabase),
         db.addTask title d p now = .ok (t, db') →
         t.id = db.nextID ∧ t.id ∉ ev) := by
  intro db ev h
  obtain ⟨h1, h2⟩ := dbreach_invariant h
  refine ⟨h1, ?_, ?_⟩
  · intro i hi
    rw [h1] at hi
    have hm := List.mem_range'_1.mp hi
    omega
  · intro title d p now t db' hop
    have hid := (dbAddTask_ok hop).1
    refine ⟨hid, fun hmem => ?_⟩
    rw [h1] at hmem
    have hm := List.mem_range'_1.mp hmem
    omega

/-- Tasks and stores of the concrete add → delete → add scenario. -/
def tE1 : TaskEntry := ⟨1, gs "a", [], gs "pending", gs "medium", 1, 1, [], [], 0⟩

def tE2 : TaskEntry := ⟨2, gs "b", [], gs "pending", gs "medium", 2, 2, [], [], 0⟩

def tE3 : TaskEntry := ⟨3, gs "c", [], gs "pending", gs "medium", 3, 3, [], [], 0⟩

def dbD1 : DBProjectDatabase :=
  { projectName := gs "demo", projectPath := gs "/demo", tasks := [tE1]
    nextID := 2, lastModified := 0, version := 1 }

def dbD2 : DBProjectDatabase := { dbD1 with tasks := [] }

def dbD3 : DBProjectDatabase := { dbD2 with tasks := [tE2], nextID := 3 }

def dbD4 : DBProjectDatabase := { dbD3 with tasks := [tE2, tE3], nextID := 4 }

theorem dbD_reach : DBReach dbD3 [1, 2] :=
  DBReach.add (gs "b") [] [] 2
    (DBReach.delete 1
      (DBReach.add (gs "a") [] [] 1
        (DBReach.init (gs "demo") (gs "/demo") 0) rfl) rfl) rfl

/-- C9 witness: after adding id 1, deleting it, and adding id 2, the
ghost history is `[1, 2]`, `next_id` is above both, and a further add
assigns the fresh id 3. -/
theorem claim9_witness :
    ([1, 2] : List Nat) = List.range' 1 ([1, 2] : List Nat).length ∧
    (2 : Nat) < dbD3.nextID ∧
    (tE3.id = dbD3.nextID ∧ tE3.id ∉ ([1, 2] : List Nat)) :=
  ⟨(claim9_id_monotonicity dbD3 [1, 2] dbD_reach).1,
   (claim9_id_monotonicity dbD3 [1, 2] dbD_reach).2.1 2 (by decide),
   (claim9_id_monotonicity dbD3 [1, 2] dbD_reach).2.2 (gs "c") [] [] 3 tE3
     dbD4 rfl⟩

end QuickTodo
